import Mathlib

set_option maxHeartbeats 1000000

namespace L2G

/-! Shallow embedding of the l2g repository (src/l2g: l_system.py, code_gen.py,
and the standalone Hilbert module main.py).

Python runtime values are modelled as follows: symbols are strings (the
source's `Symbol` is a static-only `Literal` alias over `str`); floats are
modelled as real numbers in the geometric interpreter (the idealised
semantics the spec describes) and as exact rationals in the textual
formatting layer; the float infinities used by `PositionRange` are modelled
by adjoining top and bottom elements to the coordinate type. -/

/-- Symbols are runtime strings in the source. -/
abbrev Symbol := String

/-- The fixed alphabet of the static `Symbol` type alias in l_system.py. -/
def alphabet : List Symbol := ["A", "B", "X", "F", "G", "+", "-", "[", "]"]

/-- Production rules: a mapping from symbol to replacement sequence
(a Python dict, modelled as an association list with first-match lookup). -/
abbrev ProductionRules := List (Symbol × List Symbol)

/-- LSystem from l_system.py.  The constructor performs no validation of any
kind (the source `__init__` only stores its two arguments).  The first field
is named `axiom` in the source; that word is a Lean keyword. -/
structure LSystem where
  start : List Symbol
  production_rules : ProductionRules

/-- LSystem._next_str: rewrite one generation, replacing each symbol that has
a rule by its right-hand side and keeping every other symbol unchanged. -/
def LSystem.nextStr (sys : LSystem) (curr : List Symbol) : List Symbol :=
  curr.flatMap fun s =>
    match sys.production_rules.lookup s with
    | some replacement => replacement
    | none => [s]

/-- LSystem.nth_iteration: apply `_next_str` n times starting from the axiom.
The source takes a Python `int` and iterates with `for _ in range(n)`, which
runs zero times for any non-positive n; `Int.toNat` models that clamping. -/
def LSystem.nth_iteration (sys : LSystem) (n : ℤ) : List Symbol :=
  (List.range n.toNat).foldl (fun curr _ => sys.nextStr curr) sys.start

/-- Coordinate type extended with the two float infinities (math.inf and
-math.inf in the source). -/
abbrev XFloat (α : Type) := WithBot (WithTop α)

/-- Embeds a finite coordinate value into the extended type. -/
def xf {α : Type} (a : α) : XFloat α := ((a : WithTop α) : XFloat α)

/-- PositionRange from code_gen.py: a running range over one axis.  The
fields hold floats that may be infinite. -/
structure PositionRange (α : Type) where
  min : XFloat α
  max : XFloat α
deriving DecidableEq

/-- The default-constructed PositionRange() with min = +inf and max = -inf. -/
def PositionRange.initial {α : Type} : PositionRange α := ⟨⊤, ⊥⟩

/-- PositionRange.update, translated branch for branch from the source:
a value below min replaces min (keeping max as it is), otherwise a value
above max replaces max, otherwise the range is returned unchanged. -/
def PositionRange.update {α : Type} [LinearOrder α]
    (r : PositionRange α) (curr_pos : XFloat α) : PositionRange α :=
  if curr_pos < r.min then
    ⟨curr_pos, r.max⟩
  else if curr_pos > r.max then
    ⟨r.min, curr_pos⟩
  else
    r

/-! The textual formatting layer of code_gen.py.  At runtime a coordinate is
either a Python int (the literal safe heights: above()'s default z = 3 on
the branch-recovery lines, z = 10 in the preamble, z = 5 in the retract) or
a Python float (everything produced by the turtle arithmetic and the 0.0
defaults), and `f-string of round(x, ndigits=2)` renders the two cases
differently: round returns an int unchanged and the f-string prints it with
no decimal point at all, while a float is rounded to the nearest
two-decimal value (ties to even) and printed by repr, which for a value
whose exact decimal form has at most two fractional digits prints that form
with trailing zeros stripped but always at least one fractional digit
(repr(5.0) is "5.0").  Floats are modelled as exact rationals; the tagged
type `PyNum` keeps the runtime int/float distinction, and the composite
round-then-print step is embedded as `fmtNum2`, with `halfEvenRound` on
hundredths as the rounding. -/

/-- Round a rational to the nearest integer, ties to even (the rounding used
by CPython's round builtin), computed on the reduced numerator and
denominator: f is the floor, and the fractional part n mod d over d is
compared with one half by comparing twice the remainder with d. -/
def halfEvenRound (x : ℚ) : ℤ :=
  let n := x.num
  let d := (x.den : ℤ)
  let f := Int.ediv n d
  let r2 := 2 * Int.emod n d
  if r2 < d then f
  else if d < r2 then f + 1
  else if f % 2 = 0 then f else f + 1

/-- Fractional-part digits of a number of hundredths `fr < 100`, with
trailing zeros stripped and at least one digit kept, as repr prints them. -/
def centiFracStr (fr : ℕ) : String :=
  if fr = 0 then "0"
  else if fr % 10 = 0 then toString (fr / 10)
  else if fr < 10 then "0" ++ toString fr
  else toString fr

/-- Decimal rendering of m hundredths (sign, integer part, fractional part). -/
def renderCenti (m : ℤ) : String :=
  (if m < 0 then "-" else "") ++ toString (m.natAbs / 100) ++ "." ++
    centiFracStr (m.natAbs % 100)

/-- A Python number as it exists at runtime in the emission layer: an int,
or a float modelled as an exact rational. -/
inductive PyNum where
  | int (n : ℤ)
  | float (q : ℚ)
deriving DecidableEq

/-- The embedding of f-string interpolation of round(x, ndigits=2) from
Position3D.build: round returns an int unchanged and the f-string prints it
with no decimal point; a float is rounded to hundredths and printed in
compact repr form with at least one fractional digit. -/
def fmtNum2 : PyNum → String
  | .int n => toString n
  | .float q => renderCenti (halfEvenRound (100 * q))

/-- A 2D displacement vector (Vector2D in code_gen.py). -/
structure Vector2D (α : Type) where
  x : α
  y : α

/-- A 3D position (Position3D in code_gen.py).  Equality in the source is
exact per-coordinate comparison, which is structural equality here. -/
structure Position3D (α : Type) where
  x : α
  y : α
  z : α

/-- Position3D.add: displace x and y, keep z. -/
def Position3D.add {α : Type} [Add α] (p : Position3D α) (v : Vector2D α) :
    Position3D α :=
  ⟨p.x + v.x, p.y + v.y, p.z⟩

/-- Position3D.above: same x and y at a given height z (the source default
argument is z = 3; call sites pass it explicitly here). -/
def Position3D.above {α : Type} (p : Position3D α) (z : α) : Position3D α :=
  ⟨p.x, p.y, z⟩

/-- Position3D.build: the coordinate line fragment `X.. Y.. Z..`, stated on
runtime numbers: int coordinates (the preamble, retract and recovery-line
heights) render with no decimal point, float coordinates in compact repr
form. -/
def Position3D.build (p : Position3D PyNum) : String :=
  "X" ++ fmtNum2 p.x ++ " Y" ++ fmtNum2 p.y ++ " Z" ++ fmtNum2 p.z

/-- The two machine motion commands (class Command(IntEnum) in the source). -/
inductive Command where
  | rapidPositioning
  | linearInterpolation
deriving DecidableEq

/-- The `G{command:02}` two-digit rendering of the command's IntEnum value
(RAPID_POSITIONING = 0, LINEAR_INTERPOLATION = 1). -/
def Command.code : Command → String
  | .rapidPositioning => "00"
  | .linearInterpolation => "01"

/-- FEED_RATE from code_gen.py.  The source annotates it as float but assigns
the integer literal 100, so the runtime value prints without a decimal
point. -/
def FEED_RATE (α : Type) [Semiring α] : α := 100

/-- LINE_DEPTH from code_gen.py (the source literal is -0.5). -/
def LINE_DEPTH (α : Type) [Field α] : α := -(1 / 2)

/-- A single abstract motion event / machine instruction (GCodeInstruction in
the source: command, destination position, optional feed rate; the source
default feed rate is FEED_RATE and construction sites pass it explicitly
here). -/
structure GCodeInstruction (α : Type) where
  command : Command
  dst_pos : Position3D α
  feed_rate : Option α

/-- Rendering of a feed rate (the source applies no rounding to it).  The
only feed rate code_gen.py constructs is the int 100 -- the FEED_RATE
annotation says float but the assigned literal is an int -- printed without
a decimal point; an integral float would print with one, and the fallback
for other floats is the raw rational printer, unreachable here. -/
def fmtFeed : PyNum → String
  | .int n => toString n
  | .float q => if q.den = 1 then toString q.num ++ ".0" else toString q

/-- GCodeInstruction.build: command code, coordinates, and a feed-rate suffix
for non-rapid commands with a feed rate set. -/
def GCodeInstruction.build (i : GCodeInstruction PyNum) : String :=
  let out := "G" ++ i.command.code ++ " " ++ i.dst_pos.build
  match i.feed_rate with
  | none => out
  | some f =>
      if i.command ≠ Command.rapidPositioning then out ++ " F" ++ fmtFeed f
      else out

/-! The turtle interpreter of code_gen.py, over real coordinates. -/

/-- Conversion from degrees to radians (deg_to_rad in the source). -/
noncomputable def deg_to_rad (angle : ℝ) : ℝ := angle / 180 * Real.pi

/-- Python's float modulo x % y for a positive modulus y: x minus y times
the floor of x / y, landing in the half-open interval from 0 to y. -/
noncomputable def rmod (x y : ℝ) : ℝ := x - y * ⌊x / y⌋

/-- Orientation from code_gen.py: a heading angle in radians.  The source
constructor normalizes every angle into the interval from 0 to tau;
`Orientation.ofAngle` below is that constructor, and every Orientation the
interpreter builds goes through it.  Equality in the source compares the
stored (normalized) angles, which is structural equality here. -/
structure Orientation where
  angle : ℝ

/-- The source constructor Orientation.__init__: store angle % tau. -/
noncomputable def Orientation.ofAngle (a : ℝ) : Orientation :=
  ⟨rmod a (2 * Real.pi)⟩

/-- Orientation.angle_increment: add an increment and renormalize. -/
noncomputable def Orientation.angleIncrement (o : Orientation) (inc : ℝ) :
    Orientation :=
  Orientation.ofAngle (o.angle + inc)

/-- Orientation.to_vector: the displacement of the given length along the
current heading. -/
noncomputable def Orientation.toVector (o : Orientation) (scale : ℝ) :
    Vector2D ℝ :=
  ⟨scale * Real.cos o.angle, scale * Real.sin o.angle⟩

/-- TurtleState from code_gen.py: the complete turtle context.  Source
equality compares position and orientation componentwise, which is
structural equality here; the branch stack holds independent copies. -/
structure TurtleState where
  position : Position3D ℝ
  orientation : Orientation

/-- The failure condition of the turtle interpreter: popping an empty branch
stack (an uncaught IndexError from list.pop() in the source, named
UnbalancedBranch by the specification). -/
inductive BuildError where
  | unbalancedBranch
deriving DecidableEq

open Classical in
/-- The loop body of build_g_code, translated branch for branch from the
source loop over the symbol sequence; the emitted instruction list is
produced front-first instead of appended to a growing accumulator, and the
branch stack has its top at the list head.  Instruction constructions spell
out the source's default feed rate argument. -/
noncomputable def buildGo (angle_increment step_size : ℝ) :
    TurtleState → List TurtleState → PositionRange ℝ → PositionRange ℝ →
      List Symbol →
      Except BuildError
        (List (GCodeInstruction ℝ) × PositionRange ℝ × PositionRange ℝ)
  | _, _, xr, yr, [] => .ok ([], xr, yr)
  | state, stack, xr, yr, s :: rest =>
    if s = "+" then
      buildGo angle_increment step_size
        ⟨state.position, state.orientation.angleIncrement angle_increment⟩
        stack xr yr rest
    else if s = "-" then
      buildGo angle_increment step_size
        ⟨state.position, state.orientation.angleIncrement (-angle_increment)⟩
        stack xr yr rest
    else if s = "F" ∨ s = "G" then
      let newPos := state.position.add (state.orientation.toVector step_size)
      match buildGo angle_increment step_size ⟨newPos, state.orientation⟩ stack
          (xr.update (xf newPos.x)) (yr.update (xf newPos.y)) rest with
      | .error e => .error e
      | .ok (prog, xr', yr') =>
          .ok (⟨.linearInterpolation, newPos, some (FEED_RATE ℝ)⟩ :: prog, xr', yr')
    else if s = "[" then
      buildGo angle_increment step_size state (state :: stack) xr yr rest
    else if s = "]" then
      match stack with
      | [] => .error .unbalancedBranch
      | prev_state :: stack' =>
        if prev_state = state then
          buildGo angle_increment step_size state stack' xr yr rest
        else
          match buildGo angle_increment step_size prev_state stack' xr yr rest with
          | .error e => .error e
          | .ok (prog, xr', yr') =>
              .ok (⟨.rapidPositioning, state.position.above 3, some (FEED_RATE ℝ)⟩ ::
                   ⟨.rapidPositioning, prev_state.position.above 3, some (FEED_RATE ℝ)⟩ ::
                   ⟨.linearInterpolation, prev_state.position, some (FEED_RATE ℝ)⟩ ::
                   prog, xr', yr')
    else
      buildGo angle_increment step_size state stack xr yr rest

/-- build_g_code from code_gen.py: interpret a symbol sequence starting at
the origin at drawing depth with an empty stack and fresh ranges (the source
default init_angle is 0; call sites pass it explicitly here). -/
noncomputable def build_g_code (symbols : List Symbol)
    (angle_increment step_size init_angle : ℝ) :
    Except BuildError
      (List (GCodeInstruction ℝ) × PositionRange ℝ × PositionRange ℝ) :=
  buildGo angle_increment step_size
    ⟨⟨0, 0, LINE_DEPTH ℝ⟩, Orientation.ofAngle init_angle⟩ []
    PositionRange.initial PositionRange.initial symbols

/-! Step lemmas for the interpreter, one per symbol kind. -/

lemma buildGo_nil (ai ss : ℝ) (st : TurtleState) (stk : List TurtleState)
    (xr yr : PositionRange ℝ) :
    buildGo ai ss st stk xr yr [] = .ok ([], xr, yr) := rfl

lemma buildGo_plus (ai ss : ℝ) (st : TurtleState) (stk : List TurtleState)
    (xr yr : PositionRange ℝ) (rest : List Symbol) :
    buildGo ai ss st stk xr yr ("+" :: rest) =
      buildGo ai ss ⟨st.position, st.orientation.angleIncrement ai⟩ stk xr yr rest := by
  simp [buildGo]

lemma buildGo_minus (ai ss : ℝ) (st : TurtleState) (stk : List TurtleState)
    (xr yr : PositionRange ℝ) (rest : List Symbol) :
    buildGo ai ss st stk xr yr ("-" :: rest) =
      buildGo ai ss ⟨st.position, st.orientation.angleIncrement (-ai)⟩ stk xr yr rest := by
  simp [buildGo]

lemma buildGo_draw (ai ss : ℝ) (st : TurtleState) (stk : List TurtleState)
    (xr yr : PositionRange ℝ) (s : Symbol) (rest : List Symbol)
    (hs : s = "F" ∨ s = "G") :
    buildGo ai ss st stk xr yr (s :: rest) =
      (match buildGo ai ss ⟨st.position.add (st.orientation.toVector ss), st.orientation⟩
          stk (xr.update (xf (st.position.add (st.orientation.toVector ss)).x))
          (yr.update (xf (st.position.add (st.orientation.toVector ss)).y)) rest with
        | .error e => .error e
        | .ok (prog, xr', yr') =>
            .ok (⟨.linearInterpolation, st.position.add (st.orientation.toVector ss),
                  some (FEED_RATE ℝ)⟩ :: prog, xr', yr')) := by
  rcases hs with h | h <;> subst h <;> simp [buildGo]

lemma buildGo_push (ai ss : ℝ) (st : TurtleState) (stk : List TurtleState)
    (xr yr : PositionRange ℝ) (rest : List Symbol) :
    buildGo ai ss st stk xr yr ("[" :: rest) =
      buildGo ai ss st (st :: stk) xr yr rest := by
  simp [buildGo]

lemma buildGo_pop_empty (ai ss : ℝ) (st : TurtleState)
    (xr yr : PositionRange ℝ) (rest : List Symbol) :
    buildGo ai ss st [] xr yr ("]" :: rest) = .error .unbalancedBranch := by
  simp [buildGo]

lemma buildGo_pop_eq (ai ss : ℝ) (st prev : TurtleState) (stk : List TurtleState)
    (xr yr : PositionRange ℝ) (rest : List Symbol) (h : prev = st) :
    buildGo ai ss st (prev :: stk) xr yr ("]" :: rest) =
      buildGo ai ss st stk xr yr rest := by
  simp [buildGo, h]

lemma buildGo_pop_ne (ai ss : ℝ) (st prev : TurtleState) (stk : List TurtleState)
    (xr yr : PositionRange ℝ) (rest : List Symbol) (h : prev ≠ st) :
    buildGo ai ss st (prev :: stk) xr yr ("]" :: rest) =
      (match buildGo ai ss prev stk xr yr rest with
        | .error e => .error e
        | .ok (prog, xr', yr') =>
            .ok (⟨.rapidPositioning, st.position.above 3, some (FEED_RATE ℝ)⟩ ::
                 ⟨.rapidPositioning, prev.position.above 3, some (FEED_RATE ℝ)⟩ ::
                 ⟨.linearInterpolation, prev.position, some (FEED_RATE ℝ)⟩ ::
                 prog, xr', yr')) := by
  simp [buildGo, h]

lemma buildGo_skip (ai ss : ℝ) (st : TurtleState) (stk : List TurtleState)
    (xr yr : PositionRange ℝ) (s : Symbol) (rest : List Symbol)
    (h1 : s ≠ "+") (h2 : s ≠ "-") (h3 : s ≠ "F") (h4 : s ≠ "G")
    (h5 : s ≠ "[") (h6 : s ≠ "]") :
    buildGo ai ss st stk xr yr (s :: rest) =
      buildGo ai ss st stk xr yr rest := by
  simp [buildGo, h1, h2, h3, h4, h5, h6]

/-! Theorems for the grammar engine and the leaf data structures. -/

/-- Helper: a fold that applies a function fixing x stays at x. -/
lemma foldl_const_fix {β : Type} (f : List Symbol → β → List Symbol)
    (x : List Symbol) (l : List β) (hf : ∀ b, f x b = x) :
    l.foldl f x = x := by
  induction l with
  | nil => rfl
  | cons b t ih =>
      simp only [List.foldl_cons, hf]
      exact ih

/-- C10: nth_iteration with a negative iteration count raises no error and
returns the axiom unchanged, exactly as for n = 0: the Python rewriting loop
`for _ in range(n)` runs zero times for any negative n. -/
theorem negative_iterations_identity (sys : LSystem) (n : ℤ) (h : n < 0) :
    sys.nth_iteration n = sys.start ∧ sys.nth_iteration n = sys.nth_iteration 0 := by
  unfold LSystem.nth_iteration
  rw [Int.toNat_of_nonpos (le_of_lt h)]
  exact ⟨rfl, rfl⟩

/-- The Koch grammar preset from src/l2g/__main__.py. -/
def kochSystem : LSystem :=
  ⟨["F"], [("F", ["F", "+", "F", "-", "F", "-", "F", "+", "F"])]⟩

/-- C10 witness: the Koch grammar at iteration count -3. -/
theorem negative_iterations_identity_witness :
    kochSystem.nth_iteration (-3) = kochSystem.start ∧
      kochSystem.nth_iteration (-3) = kochSystem.nth_iteration 0 :=
  negative_iterations_identity kochSystem (-3) (by decide)

/-- C5 counterexample: constructing an LSystem whose axiom contains the
out-of-alphabet symbol "Q" does not fail -- no validation exists anywhere in
the source constructor -- and expansion afterwards runs normally, treating
the unknown symbol as its own replacement. -/
theorem grammar_validation_counterexample :
    "Q" ∉ alphabet ∧ (LSystem.mk ["Q"] []).nth_iteration 1 = ["Q"] := by
  constructor
  · decide
  · rfl

/-- C5 (amended): LSystem construction performs no alphabet validation at
all: a grammar whose axiom is any symbol, in or out of the alphabet, is
accepted silently, and expansion treats a ruleless out-of-alphabet symbol as
its own identity replacement for every iteration count. -/
theorem grammar_no_validation (s : Symbol) (n : ℤ) (_h : s ∉ alphabet) :
    (LSystem.mk [s] []).nth_iteration n = [s] := by
  unfold LSystem.nth_iteration
  exact foldl_const_fix _ _ _ (fun _ => rfl)

/-- C5 witness: the out-of-alphabet grammar with axiom ["Q"] expands to
itself at depth 2. -/
theorem grammar_no_validation_witness :
    (LSystem.mk ["Q"] []).nth_iteration 2 = ["Q"] :=
  grammar_no_validation "Q" 2 (by decide)

/-- C3: evaluating PositionRange.update at the failing input.  Folding the
single finite value 1 into the initial range (+inf, -inf) yields
(min = 1, max = -inf): the max field is not set, because the source updates
max only in the elif branch that is skipped whenever the value strictly
lowers min.  Folding the decreasing sequence [2, 1] likewise never sets max,
so the resulting range is not the running (min, max) of the observed
values. -/
theorem positionRange_first_update_drops_max :
    PositionRange.update PositionRange.initial (xf (1 : ℚ)) = ⟨xf 1, ⊥⟩ ∧
    List.foldl PositionRange.update PositionRange.initial [xf (2 : ℚ), xf 1] =
      ⟨xf 1, ⊥⟩ ∧
    (⊥ : XFloat ℚ) ≠ xf (1 : ℚ) := by
  refine ⟨?_, ?_, ?_⟩ <;> decide

/-- Helper: the fractional digit string of a hundredths count below 100 has
one or two characters. -/
lemma centiFracStr_length : ∀ fr : ℕ, fr < 100 →
    1 ≤ (centiFracStr fr).length ∧ (centiFracStr fr).length ≤ 2 := by
  decide

/-- C4 counterexample: the float coordinate 5.0 is rendered as "5.0", with
one fractional digit, not in the claimed two-fractional-digit fixed point
form "5.00" (the same holds for 0.0 and -0.5); and the int coordinate 3 on
a branch-recovery rapid line is rendered as "Z3" with no decimal point at
all. -/
theorem coordinate_format_counterexample :
    Position3D.build ⟨.float 5, .float 0, .float (-(1 / 2))⟩ =
        "X5.0 Y0.0 Z-0.5" ∧
      "X5.0 Y0.0 Z-0.5" ≠ "X5.00 Y0.00 Z-0.50" ∧
      Position3D.build ⟨.float 0, .float 0, .int 3⟩ = "X0.0 Y0.0 Z3" := by
  have hx : (100 : ℚ) * (5 : ℚ) = 500 := by norm_num
  have hy : (100 : ℚ) * (0 : ℚ) = 0 := by norm_num
  have hz : (100 : ℚ) * (-(1 / 2) : ℚ) = -50 := by norm_num
  refine ⟨?_, by decide, ?_⟩
  · simp only [Position3D.build, fmtNum2]
    rw [hx, hy, hz]
    decide
  · simp only [Position3D.build, fmtNum2]
    rw [hy]
    decide

/-- C4 (amended): a coordinate of an emitted instruction line is rendered as
the f-string of round(x, ndigits=2).  A float coordinate prints with a
decimal point followed by one or two fractional digits, trailing zeros
stripped rather than padded (5.0 renders as "5.0", not "5.00"); an int
coordinate -- the preamble lift z = 10, the retract z = 5 and the
branch-recovery height z = 3 -- is returned unchanged by round and prints
as the plain integer with no decimal point at all. -/
theorem coordinate_format_compact :
    (∀ q : ℚ, ∃ (sign ipart : String) (fr : ℕ),
      fmtNum2 (.float q) = sign ++ ipart ++ "." ++ centiFracStr fr ∧ fr < 100 ∧
        1 ≤ (centiFracStr fr).length ∧ (centiFracStr fr).length ≤ 2) ∧
    (∀ n : ℤ, fmtNum2 (.int n) = toString n) ∧
    fmtNum2 (.int 10) = "10" ∧ fmtNum2 (.int 5) = "5" ∧
      fmtNum2 (.int 3) = "3" := by
  refine ⟨fun q => ?_, fun n => rfl, by decide, by decide, by decide⟩
  refine ⟨if halfEvenRound (100 * q) < 0 then "-" else "",
    toString ((halfEvenRound (100 * q)).natAbs / 100),
    (halfEvenRound (100 * q)).natAbs % 100, ?_, ?_, ?_⟩
  · simp [fmtNum2, renderCenti, String.append_assoc]
  · exact Nat.mod_lt _ (by norm_num)
  · exact centiFracStr_length _ (Nat.mod_lt _ (by norm_num))

/-- C1: interpreting a pop symbol pops the branch stack; if the popped state
equals the current state (exact per-coordinate position equality and
normalized orientation equality) the pop is discarded with no event and the
state is unchanged, otherwise exactly three events are emitted in order --
rapid above the current position at the safe height, rapid above the popped
position at the safe height, then a linear draw to the popped position --
and interpretation continues from the popped state; moreover a push
immediately followed by a pop is a complete no-op, so a bracket pair with
nothing drawn in between contributes zero events. -/
theorem branch_pop_spec (ai ss : ℝ) (state prev : TurtleState)
    (stack : List TurtleState) (xr yr : PositionRange ℝ) (rest : List Symbol) :
    (prev = state →
      buildGo ai ss state (prev :: stack) xr yr ("]" :: rest) =
        buildGo ai ss state stack xr yr rest) ∧
    (prev ≠ state →
      buildGo ai ss state (prev :: stack) xr yr ("]" :: rest) =
        (match buildGo ai ss prev stack xr yr rest with
          | .error e => .error e
          | .ok (prog, xr', yr') =>
              .ok (⟨.rapidPositioning, state.position.above 3, some (FEED_RATE ℝ)⟩ ::
                   ⟨.rapidPositioning, prev.position.above 3, some (FEED_RATE ℝ)⟩ ::
                   ⟨.linearInterpolation, prev.position, some (FEED_RATE ℝ)⟩ ::
                   prog, xr', yr'))) ∧
    buildGo ai ss state stack xr yr ("[" :: "]" :: rest) =
      buildGo ai ss state stack xr yr rest := by
  refine ⟨fun h => buildGo_pop_eq ai ss state prev stack xr yr rest h,
    fun h => buildGo_pop_ne ai ss state prev stack xr yr rest h, ?_⟩
  rw [buildGo_push, buildGo_pop_eq ai ss state state stack xr yr rest rfl]

/-- A sample turtle state at the origin, for witnesses. -/
noncomputable def sampleState : TurtleState := ⟨⟨0, 0, LINE_DEPTH ℝ⟩, ⟨0⟩⟩

/-- A sample turtle state away from the origin, for witnesses. -/
noncomputable def sampleStateMoved : TurtleState := ⟨⟨1, 0, LINE_DEPTH ℝ⟩, ⟨0⟩⟩

/-- C1 witness: a pop with an equal saved state is elided, and a pop with a
moved saved state prepends the three recovery events. -/
theorem branch_pop_spec_witness :
    (buildGo 1 1 sampleState [sampleState] PositionRange.initial
        PositionRange.initial ["]"] =
      buildGo 1 1 sampleState [] PositionRange.initial PositionRange.initial []) ∧
    (buildGo 1 1 sampleState [sampleStateMoved] PositionRange.initial
        PositionRange.initial ["]"] =
      (match buildGo 1 1 sampleStateMoved [] PositionRange.initial
          PositionRange.initial [] with
        | .error e => .error e
        | .ok (prog, xr', yr') =>
            .ok (⟨.rapidPositioning, sampleState.position.above 3, some (FEED_RATE ℝ)⟩ ::
                 ⟨.rapidPositioning, sampleStateMoved.position.above 3, some (FEED_RATE ℝ)⟩ ::
                 ⟨.linearInterpolation, sampleStateMoved.position, some (FEED_RATE ℝ)⟩ ::
                 prog, xr', yr'))) :=
  ⟨(branch_pop_spec 1 1 sampleState sampleState [] PositionRange.initial
      PositionRange.initial []).1 rfl,
   (branch_pop_spec 1 1 sampleState sampleStateMoved [] PositionRange.initial
      PositionRange.initial []).2.1
     (by simp [sampleState, sampleStateMoved, TurtleState.mk.injEq, Position3D.mk.injEq])⟩

/-- Helper: if some prefix of the remaining symbols contains more pops than
pushes plus the current stack depth, interpretation fails with the
unbalanced-branch condition. -/
lemma buildGo_unbalanced (ai ss : ℝ) :
    ∀ (p q : List Symbol) (st : TurtleState) (stk : List TurtleState)
      (xr yr : PositionRange ℝ),
      stk.length + p.count "[" < p.count "]" →
      buildGo ai ss st stk xr yr (p ++ q) = .error .unbalancedBranch := by
  intro p
  induction p with
  | nil => intro q st stk xr yr h; simp at h
  | cons s p ih =>
    intro q st stk xr yr h
    rw [List.cons_append]
    by_cases h1 : s = "+"
    · subst h1
      rw [buildGo_plus]
      exact ih q _ stk xr yr (by simp [List.count_cons] at h ⊢; omega)
    by_cases h2 : s = "-"
    · subst h2
      rw [buildGo_minus]
      exact ih q _ stk xr yr (by simp [List.count_cons] at h ⊢; omega)
    by_cases h3 : s = "F" ∨ s = "G"
    · rw [buildGo_draw ai ss st stk xr yr s _ h3,
        ih q _ stk _ _ (by rcases h3 with h3 | h3 <;> subst h3 <;>
          simp [List.count_cons] at h ⊢ <;> omega)]
    by_cases h5 : s = "["
    · subst h5
      rw [buildGo_push]
      exact ih q st (st :: stk) xr yr (by simp [List.count_cons] at h ⊢; omega)
    by_cases h6 : s = "]"
    · subst h6
      match stk with
      | [] => exact buildGo_pop_empty ai ss st xr yr (p ++ q)
      | prev :: stk' =>
        have h' : stk'.length + p.count "[" < p.count "]" := by
          simp [List.count_cons] at h; omega
        by_cases he : prev = st
        · rw [buildGo_pop_eq ai ss st prev stk' xr yr (p ++ q) he]
          exact ih q st stk' xr yr h'
        · rw [buildGo_pop_ne ai ss st prev stk' xr yr (p ++ q) he,
            ih q prev stk' xr yr h']
    · rw [buildGo_skip ai ss st stk xr yr s (p ++ q) h1 h2
        (fun hf => h3 (Or.inl hf)) (fun hg => h3 (Or.inr hg)) h5 h6]
      exact ih q st stk xr yr (by simp [List.count_cons, h5, h6] at h ⊢; omega)

/-- C6: a symbol sequence in which some pop has no matching earlier push --
that is, some prefix contains more pop than push symbols -- makes
build_g_code fail with the UnbalancedBranch condition (an uncaught
IndexError in the source) rather than being silently ignored; the failure
result carries no emitted events, and in particular the one-symbol sequence
of a single pop fails this way for every parameter choice. -/
theorem unbalanced_branch_fails (symbols p q : List Symbol) (ai ss ia : ℝ)
    (hpq : symbols = p ++ q) (hcount : p.count "[" < p.count "]") :
    build_g_code symbols ai ss ia = .error .unbalancedBranch ∧
      build_g_code ["]"] ai ss ia = .error .unbalancedBranch := by
  constructor
  · subst hpq
    exact buildGo_unbalanced ai ss p q _ _ _ _ (by simpa using hcount)
  · have : (["]"] : List Symbol) = ["]"] ++ [] := by simp
    rw [build_g_code, this]
    exact buildGo_unbalanced ai ss ["]"] [] _ _ _ _ (by decide)

/-- C6 witness: a concrete unbalanced sequence. -/
theorem unbalanced_branch_fails_witness :
    build_g_code ["+", "]"] 1 1 0 = .error .unbalancedBranch ∧
      build_g_code ["]"] 1 1 0 = .error .unbalancedBranch :=
  unbalanced_branch_fails ["+", "]"] ["+", "]"] [] 1 1 0 (by simp) (by decide)

/-! Angle normalization and trigonometric facts used to evaluate concrete
runs of the interpreter. -/

lemma rmod_two_pi_eq (x : ℝ) (n : ℤ) (h1 : 2 * Real.pi * n ≤ x)
    (h2 : x < 2 * Real.pi * (n + 1)) :
    rmod x (2 * Real.pi) = x - 2 * Real.pi * n := by
  have hpos : (0 : ℝ) < 2 * Real.pi := by positivity
  have hfl : ⌊x / (2 * Real.pi)⌋ = n := by
    rw [Int.floor_eq_iff]
    constructor
    · rw [le_div_iff₀ hpos]; linarith
    · rw [div_lt_iff₀ hpos]; linarith
  rw [rmod, hfl]

lemma ofAngle_eq (a : ℝ) (n : ℤ) (h1 : 2 * Real.pi * n ≤ a)
    (h2 : a < 2 * Real.pi * (n + 1)) :
    Orientation.ofAngle a = ⟨a - 2 * Real.pi * n⟩ := by
  rw [Orientation.ofAngle, rmod_two_pi_eq a n h1 h2]

lemma ofAngle_zero : Orientation.ofAngle 0 = ⟨0⟩ := by
  have hπ := Real.pi_pos
  rw [ofAngle_eq 0 0 (by push_cast; linarith) (by push_cast; linarith)]
  congr 1
  push_cast
  ring

lemma incQ_0 : Orientation.angleIncrement ⟨0⟩ (Real.pi / 2) = ⟨Real.pi / 2⟩ := by
  have hπ := Real.pi_pos
  rw [Orientation.angleIncrement,
    ofAngle_eq _ 0 (by push_cast; linarith) (by push_cast; linarith)]
  congr 1
  push_cast
  ring

lemma incQ_1 : Orientation.angleIncrement ⟨Real.pi / 2⟩ (Real.pi / 2) = ⟨Real.pi⟩ := by
  have hπ := Real.pi_pos
  rw [Orientation.angleIncrement,
    ofAngle_eq _ 0 (by push_cast; linarith) (by push_cast; linarith)]
  congr 1
  push_cast
  ring

lemma incQ_2 : Orientation.angleIncrement ⟨Real.pi⟩ (Real.pi / 2) =
    ⟨3 * Real.pi / 2⟩ := by
  have hπ := Real.pi_pos
  rw [Orientation.angleIncrement,
    ofAngle_eq _ 0 (by push_cast; linarith) (by push_cast; linarith)]
  congr 1
  push_cast
  ring

lemma incQ_3 : Orientation.angleIncrement ⟨3 * Real.pi / 2⟩ (Real.pi / 2) = ⟨0⟩ := by
  have hπ := Real.pi_pos
  rw [Orientation.angleIncrement,
    ofAngle_eq _ 1 (by push_cast; linarith) (by push_cast; linarith)]
  congr 1
  push_cast
  ring

lemma decQ_0 : Orientation.angleIncrement ⟨0⟩ (-(Real.pi / 2)) =
    ⟨3 * Real.pi / 2⟩ := by
  have hπ := Real.pi_pos
  rw [Orientation.angleIncrement,
    ofAngle_eq _ (-1) (by push_cast; linarith) (by push_cast; linarith)]
  congr 1
  push_cast
  ring

lemma decQ_1 : Orientation.angleIncrement ⟨Real.pi / 2⟩ (-(Real.pi / 2)) = ⟨0⟩ := by
  have hπ := Real.pi_pos
  rw [Orientation.angleIncrement,
    ofAngle_eq _ 0 (by push_cast; linarith) (by push_cast; linarith)]
  congr 1
  push_cast
  ring

lemma decQ_2 : Orientation.angleIncrement ⟨Real.pi⟩ (-(Real.pi / 2)) =
    ⟨Real.pi / 2⟩ := by
  have hπ := Real.pi_pos
  rw [Orientation.angleIncrement,
    ofAngle_eq _ 0 (by push_cast; linarith) (by push_cast; linarith)]
  congr 1
  push_cast
  ring

lemma decQ_3 : Orientation.angleIncrement ⟨3 * Real.pi / 2⟩ (-(Real.pi / 2)) =
    ⟨Real.pi⟩ := by
  have hπ := Real.pi_pos
  rw [Orientation.angleIncrement,
    ofAngle_eq _ 0 (by push_cast; linarith) (by push_cast; linarith)]
  congr 1
  push_cast
  ring

lemma cos_three_halves_pi : Real.cos (3 * Real.pi / 2) = 0 := by
  rw [show (3 * Real.pi / 2 : ℝ) = Real.pi + Real.pi / 2 by ring, Real.cos_add]
  simp

lemma sin_three_halves_pi : Real.sin (3 * Real.pi / 2) = -1 := by
  rw [show (3 * Real.pi / 2 : ℝ) = Real.pi + Real.pi / 2 by ring, Real.sin_add]
  simp

lemma toVector_E (s : ℝ) : Orientation.toVector ⟨0⟩ s = ⟨s, 0⟩ := by
  simp [Orientation.toVector]

lemma toVector_N (s : ℝ) : Orientation.toVector ⟨Real.pi / 2⟩ s = ⟨0, s⟩ := by
  simp [Orientation.toVector]

lemma toVector_W (s : ℝ) : Orientation.toVector ⟨Real.pi⟩ s = ⟨-s, 0⟩ := by
  simp [Orientation.toVector]

lemma toVector_S (s : ℝ) : Orientation.toVector ⟨3 * Real.pi / 2⟩ s = ⟨0, -s⟩ := by
  rw [Orientation.toVector, cos_three_halves_pi, sin_three_halves_pi]
  norm_num

/-! Evaluation lemmas for range updates on finite values. -/

lemma xf_lt_top {α : Type} [Preorder α] (v : α) : xf v < (⊤ : XFloat α) :=
  WithBot.coe_lt_coe.mpr (WithTop.coe_lt_top v)

lemma bot_lt_xf {α : Type} [Preorder α] (v : α) : (⊥ : XFloat α) < xf v :=
  WithBot.bot_lt_coe _

lemma xf_lt_xf {α : Type} [Preorder α] (a b : α) : xf a < xf b ↔ a < b := by
  simp [xf, WithBot.coe_lt_coe, WithTop.coe_lt_coe]

lemma xf_inj {α : Type} (a b : α) : xf a = xf b ↔ a = b := by
  simp [xf, WithBot.coe_inj, WithTop.coe_inj]

lemma update_initial (v : ℝ) :
    PositionRange.initial.update (xf v) = ⟨xf v, ⊥⟩ := by
  rw [PositionRange.update]
  simp [PositionRange.initial, xf_lt_top]

lemma update_xbot (a c : ℝ) :
    (⟨xf a, ⊥⟩ : PositionRange ℝ).update (xf c) =
      if c < a then ⟨xf c, ⊥⟩ else ⟨xf a, xf c⟩ := by
  rw [PositionRange.update]
  by_cases h : c < a
  · simp [h, (xf_lt_xf c a).mpr h]
  · have hc : ¬ xf c < xf a := fun hlt => h ((xf_lt_xf c a).mp hlt)
    simp [h, hc, bot_lt_xf]

lemma update_xx (a b c : ℝ) :
    (⟨xf a, xf b⟩ : PositionRange ℝ).update (xf c) =
      if c < a then ⟨xf c, xf b⟩
      else if b < c then ⟨xf a, xf c⟩
      else ⟨xf a, xf b⟩ := by
  rw [PositionRange.update]
  by_cases h1 : c < a
  · simp [h1, (xf_lt_xf c a).mpr h1]
  · have hc1 : ¬ xf c < xf a := fun hlt => h1 ((xf_lt_xf c a).mp hlt)
    by_cases h2 : b < c
    · simp [h1, h2, hc1, (xf_lt_xf b c).mpr h2]
    · have hc2 : ¬ xf b < xf c := fun hlt => h2 ((xf_lt_xf b c).mp hlt)
      simp [h1, h2, hc1, hc2]

/-! Draw-step lemmas specialized to the two forward symbols, usable by simp. -/

lemma buildGo_F (ai ss : ℝ) (st : TurtleState) (stk : List TurtleState)
    (xr yr : PositionRange ℝ) (rest : List Symbol) :
    buildGo ai ss st stk xr yr ("F" :: rest) =
      (match buildGo ai ss ⟨st.position.add (st.orientation.toVector ss), st.orientation⟩
          stk (xr.update (xf (st.position.add (st.orientation.toVector ss)).x))
          (yr.update (xf (st.position.add (st.orientation.toVector ss)).y)) rest with
        | .error e => .error e
        | .ok (prog, xr', yr') =>
            .ok (⟨.linearInterpolation, st.position.add (st.orientation.toVector ss),
                  some (FEED_RATE ℝ)⟩ :: prog, xr', yr')) :=
  buildGo_draw ai ss st stk xr yr "F" rest (Or.inl rfl)

lemma buildGo_G (ai ss : ℝ) (st : TurtleState) (stk : List TurtleState)
    (xr yr : PositionRange ℝ) (rest : List Symbol) :
    buildGo ai ss st stk xr yr ("G" :: rest) =
      (match buildGo ai ss ⟨st.position.add (st.orientation.toVector ss), st.orientation⟩
          stk (xr.update (xf (st.position.add (st.orientation.toVector ss)).x))
          (yr.update (xf (st.position.add (st.orientation.toVector ss)).y)) rest with
        | .error e => .error e
        | .ok (prog, xr', yr') =>
            .ok (⟨.linearInterpolation, st.position.add (st.orientation.toVector ss),
                  some (FEED_RATE ℝ)⟩ :: prog, xr', yr')) :=
  buildGo_draw ai ss st stk xr yr "G" rest (Or.inr rfl)

/-- Evaluation of the interpreter on the once-expanded Koch sequence. -/
lemma koch_run :
    build_g_code ["F", "+", "F", "-", "F", "-", "F", "+", "F"] (Real.pi / 2) 5 0 =
      .ok ([⟨.linearInterpolation, ⟨5, 0, LINE_DEPTH ℝ⟩, some (FEED_RATE ℝ)⟩,
            ⟨.linearInterpolation, ⟨5, 5, LINE_DEPTH ℝ⟩, some (FEED_RATE ℝ)⟩,
            ⟨.linearInterpolation, ⟨10, 5, LINE_DEPTH ℝ⟩, some (FEED_RATE ℝ)⟩,
            ⟨.linearInterpolation, ⟨10, 0, LINE_DEPTH ℝ⟩, some (FEED_RATE ℝ)⟩,
            ⟨.linearInterpolation, ⟨15, 0, LINE_DEPTH ℝ⟩, some (FEED_RATE ℝ)⟩],
           ⟨xf 5, xf 15⟩, ⟨xf 0, xf 5⟩) := by
  rw [build_g_code, ofAngle_zero]
  norm_num [buildGo_F, buildGo_plus, buildGo_minus, buildGo_nil,
    Position3D.add, toVector_E, toVector_N, toVector_S,
    incQ_0, incQ_3, decQ_0, decQ_1,
    update_initial, update_xbot, update_xx]

/-- C2 counterexample: for the once-expanded Koch sequence the returned
x range is (5, 15), not the claimed (0, 15): the origin is never folded
into the ranges, so the x minimum is the first draw target 5. -/
theorem koch_xrange_counterexample :
    (build_g_code ["F", "+", "F", "-", "F", "-", "F", "+", "F"]
        (Real.pi / 2) 5 0).map (fun r => r.2.1) ≠
      .ok (⟨xf 0, xf 15⟩ : PositionRange ℝ) := by
  rw [koch_run]
  norm_num [Except.map, PositionRange.mk.injEq, xf_inj]

/-- C2 (amended): one expansion of the Koch grammar with axiom F and rule
F to F+F-F-F+F yields the sequence F+F-F-F+F, and interpreting it with
angle increment pi/2, step size 5 and initial angle 0 yields exactly five
linear-draw events at (5,0), (5,5), (10,5), (10,0), (15,0) with z held at
the drawing depth; the returned y range is (0, 5) and the returned x range
is (5, 15) -- not (0, 15) as claimed, because only draw targets are folded
into the ranges and the origin x never is. -/
theorem koch_scenario :
    kochSystem.nth_iteration 1 = ["F", "+", "F", "-", "F", "-", "F", "+", "F"] ∧
    build_g_code ["F", "+", "F", "-", "F", "-", "F", "+", "F"] (Real.pi / 2) 5 0 =
      .ok ([⟨.linearInterpolation, ⟨5, 0, LINE_DEPTH ℝ⟩, some (FEED_RATE ℝ)⟩,
            ⟨.linearInterpolation, ⟨5, 5, LINE_DEPTH ℝ⟩, some (FEED_RATE ℝ)⟩,
            ⟨.linearInterpolation, ⟨10, 5, LINE_DEPTH ℝ⟩, some (FEED_RATE ℝ)⟩,
            ⟨.linearInterpolation, ⟨10, 0, LINE_DEPTH ℝ⟩, some (FEED_RATE ℝ)⟩,
            ⟨.linearInterpolation, ⟨15, 0, LINE_DEPTH ℝ⟩, some (FEED_RATE ℝ)⟩],
           ⟨xf 5, xf 15⟩, ⟨xf 0, xf 5⟩) :=
  ⟨rfl, koch_run⟩

open Classical in
/-- Specification-side mirror of the interpreter: it follows exactly the
state and stack transitions of buildGo but records only the target
positions of forward-draw (F/G) moves; it is used to state which values the
returned ranges are folded with. -/
noncomputable def drawTargets (angle_increment step_size : ℝ) :
    TurtleState → List TurtleState → List Symbol → List (Position3D ℝ)
  | _, _, [] => []
  | state, stack, s :: rest =>
    if s = "+" then
      drawTargets angle_increment step_size
        ⟨state.position, state.orientation.angleIncrement angle_increment⟩ stack rest
    else if s = "-" then
      drawTargets angle_increment step_size
        ⟨state.position, state.orientation.angleIncrement (-angle_increment)⟩ stack rest
    else if s = "F" ∨ s = "G" then
      let newPos := state.position.add (state.orientation.toVector step_size)
      newPos :: drawTargets angle_increment step_size ⟨newPos, state.orientation⟩ stack rest
    else if s = "[" then
      drawTargets angle_increment step_size state (state :: stack) rest
    else if s = "]" then
      match stack with
      | [] => []
      | prev_state :: stack' =>
        if prev_state = state then
          drawTargets angle_increment step_size state stack' rest
        else
          drawTargets angle_increment step_size prev_state stack' rest
    else
      drawTargets angle_increment step_size state stack rest

/-- Helper: on every successful run the returned ranges are the fold of
update over the x (respectively y) coordinates of the forward-draw targets
collected by drawTargets, starting from the incoming ranges. -/
lemma buildGo_ranges_eq (ai ss : ℝ) :
    ∀ (syms : List Symbol) (st : TurtleState) (stk : List TurtleState)
      (xr yr : PositionRange ℝ) (ev : List (GCodeInstruction ℝ))
      (xr' yr' : PositionRange ℝ),
      buildGo ai ss st stk xr yr syms = .ok (ev, xr', yr') →
      xr' = ((drawTargets ai ss st stk syms).map fun p => xf p.x).foldl
          PositionRange.update xr ∧
      yr' = ((drawTargets ai ss st stk syms).map fun p => xf p.y).foldl
          PositionRange.update yr := by
  intro syms
  induction syms with
  | nil =>
    intro st stk xr yr ev xr' yr' h
    rw [buildGo_nil] at h
    simp only [Except.ok.injEq, Prod.mk.injEq] at h
    simp [drawTargets, h.2.1.symm, h.2.2.symm]
  | cons s rest ih =>
    intro st stk xr yr ev xr' yr' h
    by_cases h1 : s = "+"
    · subst h1
      rw [buildGo_plus] at h
      simpa [drawTargets] using ih _ _ _ _ _ _ _ h
    by_cases h2 : s = "-"
    · subst h2
      rw [buildGo_minus] at h
      simpa [drawTargets] using ih _ _ _ _ _ _ _ h
    by_cases h3 : s = "F" ∨ s = "G"
    · rw [buildGo_draw ai ss st stk xr yr s rest h3] at h
      cases hrec : buildGo ai ss
          ⟨st.position.add (st.orientation.toVector ss), st.orientation⟩ stk
          (xr.update (xf (st.position.add (st.orientation.toVector ss)).x))
          (yr.update (xf (st.position.add (st.orientation.toVector ss)).y)) rest with
      | error e => rw [hrec] at h; simp at h
      | ok val =>
        obtain ⟨prog, xr2, yr2⟩ := val
        rw [hrec] at h
        simp only [Except.ok.injEq, Prod.mk.injEq] at h
        have := ih _ _ _ _ _ _ _ hrec
        rcases h3 with h3 | h3 <;> subst h3 <;>
          simpa [drawTargets, h.2.1.symm, h.2.2.symm] using this
    by_cases h5 : s = "["
    · subst h5
      rw [buildGo_push] at h
      simpa [drawTargets] using ih _ _ _ _ _ _ _ h
    by_cases h6 : s = "]"
    · subst h6
      match stk with
      | [] => rw [buildGo_pop_empty] at h; simp at h
      | prev :: stk' =>
        by_cases he : prev = st
        · rw [buildGo_pop_eq ai ss st prev stk' xr yr rest he] at h
          simpa [drawTargets, he] using ih _ _ _ _ _ _ _ h
        · rw [buildGo_pop_ne ai ss st prev stk' xr yr rest he] at h
          cases hrec : buildGo ai ss prev stk' xr yr rest with
          | error e => rw [hrec] at h; simp at h
          | ok val =>
            obtain ⟨prog, xr2, yr2⟩ := val
            rw [hrec] at h
            simp only [Except.ok.injEq, Prod.mk.injEq] at h
            have := ih _ _ _ _ _ _ _ hrec
            simpa [drawTargets, he, h.2.1.symm, h.2.2.symm] using this
    · rw [buildGo_skip ai ss st stk xr yr s rest h1 h2
        (fun hf => h3 (Or.inl hf)) (fun hg => h3 (Or.inr hg)) h5 h6] at h
      simpa [drawTargets, h1, h2, h3, h5, h6] using ih _ _ _ _ _ _ _ h

/-- C9: the ranges the interpreter returns are exactly the fold of update
over the x and y coordinates of the forward-draw (F/G) target positions:
the initial origin position is never folded in, and the target positions of
the three branch-recovery events are never folded in either.  Concretely,
the bracket sequence [ + ] emits three recovery events yet returns both
ranges still at their initial (+inf, -inf) value. -/
theorem ranges_fold_draw_targets_only :
    (∀ (ai ss : ℝ) (syms : List Symbol) (st : TurtleState)
        (stk : List TurtleState) (xr yr : PositionRange ℝ)
        (ev : List (GCodeInstruction ℝ)) (xr' yr' : PositionRange ℝ),
        buildGo ai ss st stk xr yr syms = .ok (ev, xr', yr') →
        xr' = ((drawTargets ai ss st stk syms).map fun p => xf p.x).foldl
            PositionRange.update xr ∧
        yr' = ((drawTargets ai ss st stk syms).map fun p => xf p.y).foldl
            PositionRange.update yr) ∧
    build_g_code ["[", "+", "]"] (Real.pi / 2) 5 0 =
      .ok ([⟨.rapidPositioning, ⟨0, 0, 3⟩, some (FEED_RATE ℝ)⟩,
            ⟨.rapidPositioning, ⟨0, 0, 3⟩, some (FEED_RATE ℝ)⟩,
            ⟨.linearInterpolation, ⟨0, 0, LINE_DEPTH ℝ⟩, some (FEED_RATE ℝ)⟩],
           PositionRange.initial, PositionRange.initial) := by
  constructor
  · exact fun ai ss => buildGo_ranges_eq ai ss
  · rw [build_g_code, ofAngle_zero, buildGo_push, buildGo_plus]
    have hne : (⟨⟨0, 0, LINE_DEPTH ℝ⟩, ⟨0⟩⟩ : TurtleState) ≠
        ⟨⟨0, 0, LINE_DEPTH ℝ⟩, ⟨Real.pi / 2⟩⟩ := by
      simp only [ne_eq, TurtleState.mk.injEq, Orientation.mk.injEq, not_and]
      intro _ ho
      exact Real.pi_ne_zero (by linarith)
    norm_num [incQ_0]
    rw [buildGo_pop_ne _ _ _ _ _ _ _ _ hne, buildGo_nil]
    norm_num [Position3D.above]

/-- C9 witness: a run over a single inert symbol leaves both ranges at the
fold over the empty list of draw targets. -/
theorem ranges_fold_draw_targets_only_witness :
    PositionRange.initial =
      ((drawTargets 1 1 sampleState [] ["X"]).map fun p => xf p.x).foldl
        PositionRange.update PositionRange.initial ∧
    PositionRange.initial =
      ((drawTargets 1 1 sampleState [] ["X"]).map fun p => xf p.y).foldl
        PositionRange.update PositionRange.initial :=
  ranges_fold_draw_targets_only.1 1 1 ["X"] sampleState [] PositionRange.initial
    PositionRange.initial [] PositionRange.initial PositionRange.initial
    (by simp [buildGo])

/-! The emission stage write_nc of code_gen.py, modelled as its pure line
assembly (the destination file write is an excluded I/O sink).  It is stated
over runtime numbers (PyNum), on which the formatting functions are
computable; the float infinities of a fresh PositionRange print as inf and
-inf exactly as the source's .2f format does. -/

/-- ProgramWithMeta from code_gen.py: the compiled instruction sequence, the
two ranges, and the run parameters. -/
structure ProgramWithMeta (α : Type) where
  code : List (GCodeInstruction α)
  x_range : PositionRange α
  y_range : PositionRange α
  nb_iterations : ℤ
  step_size : α
  angle_increment : α
  init_angle : α

/-- Decimal rendering of m hundredths with exactly two fractional digits
(the .2f fixed-point format used only by the range comment lines). -/
def renderFixed2 (m : ℤ) : String :=
  (if m < 0 then "-" else "") ++ toString (m.natAbs / 100) ++ "." ++
    (if m.natAbs % 100 < 10 then "0" ++ toString (m.natAbs % 100)
     else toString (m.natAbs % 100))

/-- Fixed two-digit rendering of one PositionRange bound (the .2f format
pads both ints and floats to exactly two fractional digits). -/
def fmtBound2 (v : XFloat PyNum) : String :=
  WithBot.recBotCoe "-inf"
    (fun t => WithTop.recTopCoe "inf"
      (fun u : PyNum =>
        match u with
        | .int n => renderFixed2 (100 * n)
        | .float q => renderFixed2 (halfEvenRound (100 * q))) t) v

/-- PositionRange.__str__: the parenthesized min/max comment fragment. -/
def PositionRange.toStr (r : PositionRange PyNum) : String :=
  "(min=" ++ fmtBound2 r.min ++ ", max=" ++ fmtBound2 r.max ++ ")"

/-- The emission failure condition: no last position to retract from (an
uncaught IndexError on code[-1] in the source, named EmptyProgram by the
specification). -/
inductive EmitError where
  | emptyProgram
deriving DecidableEq

/-- write_nc's pure line assembly, translated line for line from the source:
two range comments, spindle start, absolute mode, metric mode, a rapid lift
to the int height z = 10 with no feed rate, a linear descent to the float
drawing depth, one line per instruction, then the rapid retract from the
last drawn position lifted to the int height z = 5 and the spindle stop
(the x and y preamble defaults are the floats 0.0, and the feed rate is the
int 100). -/
def write_nc_lines (program : ProgramWithMeta PyNum) :
    Except EmitError (List String) :=
  let lines : List String :=
    ["; x_range = " ++ program.x_range.toStr,
     "; y_range = " ++ program.y_range.toStr,
     "M3 S10000",
     "G90",
     "G21",
     (GCodeInstruction.mk .rapidPositioning ⟨.float 0, .float 0, .int 10⟩ none).build,
     (GCodeInstruction.mk .linearInterpolation
        ⟨.float 0, .float 0, .float (LINE_DEPTH ℚ)⟩
        (some (.int (FEED_RATE ℤ)))).build]
    ++ program.code.map GCodeInstruction.build
  match program.code.getLast? with
  | none => .error .emptyProgram
  | some lastInstr =>
      .ok (lines ++
        [(GCodeInstruction.mk .rapidPositioning
            ⟨lastInstr.dst_pos.x, lastInstr.dst_pos.y, .int 5⟩
            (some (.int (FEED_RATE ℤ)))).build,
         "M5"])

/-- C7: emission fails with the EmptyProgram condition exactly when the
event sequence is empty (there is no last position to retract from); on a
non-empty event sequence it succeeds, and the emitted lines end with a
rapid retract to the last event's position lifted to z = 5 followed by the
spindle-stop instruction M5. -/
theorem write_nc_spec (program : ProgramWithMeta PyNum) :
    (program.code = [] → write_nc_lines program = .error .emptyProgram) ∧
    (∀ (pre : List (GCodeInstruction PyNum)) (lastInstr : GCodeInstruction PyNum),
      program.code = pre ++ [lastInstr] →
      write_nc_lines program =
        .ok ((["; x_range = " ++ program.x_range.toStr,
               "; y_range = " ++ program.y_range.toStr,
               "M3 S10000",
               "G90",
               "G21",
               (GCodeInstruction.mk .rapidPositioning
                  ⟨.float 0, .float 0, .int 10⟩ none).build,
               (GCodeInstruction.mk .linearInterpolation
                  ⟨.float 0, .float 0, .float (LINE_DEPTH ℚ)⟩
                  (some (.int (FEED_RATE ℤ)))).build]
              ++ program.code.map GCodeInstruction.build)
            ++ [(GCodeInstruction.mk .rapidPositioning
                  ⟨lastInstr.dst_pos.x, lastInstr.dst_pos.y, .int 5⟩
                  (some (.int (FEED_RATE ℤ)))).build,
                "M5"])) := by
  constructor
  · intro h
    rw [write_nc_lines, h]
    rfl
  · intro pre lastInstr h
    rw [write_nc_lines, h, List.getLast?_concat]

/-- A sample instruction, for the emission witness. -/
def sampleInstr : GCodeInstruction PyNum :=
  ⟨.linearInterpolation, ⟨.float 5, .float 0, .float (LINE_DEPTH ℚ)⟩,
   some (.int (FEED_RATE ℤ))⟩

/-- A sample empty compiled program, for the emission witness. -/
def sampleEmptyProg : ProgramWithMeta PyNum :=
  ⟨[], PositionRange.initial, PositionRange.initial, 0, .float 1, .float 1,
   .float 0⟩

/-- A sample one-instruction compiled program, for the emission witness. -/
def sampleOneProg : ProgramWithMeta PyNum :=
  ⟨[sampleInstr], PositionRange.initial, PositionRange.initial, 0, .float 1,
   .float 1, .float 0⟩

/-- C7 witness: emission fails on the empty program and succeeds on the
one-instruction program, ending with the retract line and M5. -/
theorem write_nc_spec_witness :
    write_nc_lines sampleEmptyProg = .error .emptyProgram ∧
    write_nc_lines sampleOneProg =
      .ok ((["; x_range = " ++ sampleOneProg.x_range.toStr,
             "; y_range = " ++ sampleOneProg.y_range.toStr,
             "M3 S10000",
             "G90",
             "G21",
             (GCodeInstruction.mk .rapidPositioning
                ⟨.float 0, .float 0, .int 10⟩ none).build,
             (GCodeInstruction.mk .linearInterpolation
                ⟨.float 0, .float 0, .float (LINE_DEPTH ℚ)⟩
                (some (.int (FEED_RATE ℤ)))).build]
            ++ sampleOneProg.code.map GCodeInstruction.build)
          ++ [(GCodeInstruction.mk .rapidPositioning
                ⟨sampleInstr.dst_pos.x, sampleInstr.dst_pos.y, .int 5⟩
                (some (.int (FEED_RATE ℤ)))).build,
              "M5"]) :=
  ⟨(write_nc_spec sampleEmptyProg).1 rfl,
   (write_nc_spec sampleOneProg).2 [] sampleInstr rfl⟩

namespace Hilbert

/-! The standalone Hilbert module src/l2g/main.py: its own grammar expander
and turtle emitter over the four cardinal directions.  Its geometric
primitive classes are textually identical to those of code_gen.py and are
shared here; its configuration constants differ (feed rate 400, drawing
depth -1), and unlike the unified interpreter its loop appends an
instruction for turn symbols too. -/

/-- FEED_RATE from main.py (the integer literal 400). -/
noncomputable def FEED_RATE : ℝ := 400

/-- The Orientation IntEnum of main.py (NORTH = 0, EAST = 1, SOUTH = 2,
WEST = 3). -/
inductive Orientation4 where
  | north
  | east
  | south
  | west
deriving DecidableEq

/-- Orientation.left from main.py: value (v - 1 + 4) mod 4. -/
def Orientation4.left : Orientation4 → Orientation4
  | .north => .west
  | .east => .north
  | .south => .east
  | .west => .south

/-- Orientation.right from main.py: value (v + 1 + 4) mod 4. -/
def Orientation4.right : Orientation4 → Orientation4
  | .north => .east
  | .east => .south
  | .south => .west
  | .west => .north

/-- Orientation.to_vector from main.py: the unit direction scaled. -/
noncomputable def Orientation4.to_vector (o : Orientation4) (scale : ℝ) :
    Vector2D ℝ :=
  match o with
  | .north => ⟨0, 1 * scale⟩
  | .east => ⟨1 * scale, 0⟩
  | .south => ⟨0, -1 * scale⟩
  | .west => ⟨-1 * scale, 0⟩

/-- next_str from main.py: the hard-coded Hilbert production rules. -/
def next_str (curr : List Symbol) : List Symbol :=
  curr.flatMap fun s =>
    if s = "A" then ["+", "B", "F", "-", "A", "F", "A", "-", "F", "B", "+"]
    else if s = "B" then ["-", "A", "F", "+", "B", "F", "B", "+", "F", "A", "-"]
    else [s]

/-- nth_iteration from main.py: n rewrites of the axiom A. -/
def nth_iteration (n : ℕ) : List Symbol :=
  (List.range n).foldl (fun curr _ => next_str curr) ["A"]

/-- The loop body of main.py's build_g_code.  Every turn symbol updates the
orientation and then appends an instruction at the unchanged position, a
forward symbol appends an instruction at the new position, and only the
final else branch (A, B) skips.  Produced front-first like buildGo. -/
noncomputable def go : Orientation4 → Position3D ℝ → List Symbol →
    List (GCodeInstruction ℝ)
  | _, _, [] => []
  | o, p, s :: rest =>
    if s = "+" then
      ⟨.linearInterpolation, p, some FEED_RATE⟩ :: go o.left p rest
    else if s = "-" then
      ⟨.linearInterpolation, p, some FEED_RATE⟩ :: go o.right p rest
    else if s = "F" then
      let p' := p.add (o.to_vector 5)
      ⟨.linearInterpolation, p', some FEED_RATE⟩ :: go o p' rest
    else
      go o p rest

/-- build_g_code from main.py: start facing EAST at the origin at depth -1. -/
noncomputable def build_g_code (symbols : List Symbol) :
    List (GCodeInstruction ℝ) :=
  go .east ⟨0, 0, -1⟩ symbols

end Hilbert

/-- The command kind and x/y target of one instruction: the data on which
the two emitter variants are compared (the z depth and the feed rate are
configuration constants that differ between them). -/
noncomputable def projXY (i : GCodeInstruction ℝ) : Command × ℝ × ℝ :=
  (i.command, i.dst_pos.x, i.dst_pos.y)

open Classical in
/-- Removes the events whose x/y target equals the running previous x/y
position: exactly the stationary events the standalone emitter produces at
turn symbols. -/
noncomputable def collapseStationary :
    ℝ × ℝ → List (Command × ℝ × ℝ) → List (Command × ℝ × ℝ)
  | _, [] => []
  | p, (c, x, y) :: t =>
    if (x, y) = p then collapseStationary p t
    else (c, x, y) :: collapseStationary (x, y) t

/-- The heading angle the unified interpreter assigns to each cardinal
direction of the standalone module. -/
noncomputable def dirAngle : Hilbert.Orientation4 → ℝ
  | .east => 0
  | .north => Real.pi / 2
  | .west => Real.pi
  | .south => 3 * Real.pi / 2

lemma dirAngle_left (o : Hilbert.Orientation4) :
    Orientation.angleIncrement ⟨dirAngle o⟩ (Real.pi / 2) = ⟨dirAngle o.left⟩ := by
  cases o
  · simpa [dirAngle, Hilbert.Orientation4.left] using incQ_1
  · simpa [dirAngle, Hilbert.Orientation4.left] using incQ_0
  · simpa [dirAngle, Hilbert.Orientation4.left] using incQ_3
  · simpa [dirAngle, Hilbert.Orientation4.left] using incQ_2

lemma dirAngle_right (o : Hilbert.Orientation4) :
    Orientation.angleIncrement ⟨dirAngle o⟩ (-(Real.pi / 2)) = ⟨dirAngle o.right⟩ := by
  cases o
  · simpa [dirAngle, Hilbert.Orientation4.right] using decQ_1
  · simpa [dirAngle, Hilbert.Orientation4.right] using decQ_0
  · simpa [dirAngle, Hilbert.Orientation4.right] using decQ_3
  · simpa [dirAngle, Hilbert.Orientation4.right] using decQ_2

lemma toVector_dir (o : Hilbert.Orientation4) :
    Orientation.toVector ⟨dirAngle o⟩ 5 = Hilbert.Orientation4.to_vector o 5 := by
  cases o
  · simpa [dirAngle, Hilbert.Orientation4.to_vector] using toVector_N 5
  · simpa [dirAngle, Hilbert.Orientation4.to_vector] using toVector_E 5
  · simp [dirAngle, Hilbert.Orientation4.to_vector, toVector_S]
  · simpa [dirAngle, Hilbert.Orientation4.to_vector] using toVector_W 5

lemma to_vector_moves (o : Hilbert.Orientation4) (p : Position3D ℝ) :
    ¬ (((p.add (Hilbert.Orientation4.to_vector o 5)).x,
        (p.add (Hilbert.Orientation4.to_vector o 5)).y) = (p.x, p.y)) := by
  cases o <;>
    simp [Hilbert.Orientation4.to_vector, Position3D.add, Prod.ext_iff]

/-! Step lemmas for the standalone loop, one per symbol kind. -/

lemma go_nil (o : Hilbert.Orientation4) (p : Position3D ℝ) :
    Hilbert.go o p [] = [] := rfl

lemma go_plus (o : Hilbert.Orientation4) (p : Position3D ℝ) (rest : List Symbol) :
    Hilbert.go o p ("+" :: rest) =
      ⟨.linearInterpolation, p, some Hilbert.FEED_RATE⟩ :: Hilbert.go o.left p rest := by
  simp [Hilbert.go]

lemma go_minus (o : Hilbert.Orientation4) (p : Position3D ℝ) (rest : List Symbol) :
    Hilbert.go o p ("-" :: rest) =
      ⟨.linearInterpolation, p, some Hilbert.FEED_RATE⟩ :: Hilbert.go o.right p rest := by
  simp [Hilbert.go]

lemma go_F (o : Hilbert.Orientation4) (p : Position3D ℝ) (rest : List Symbol) :
    Hilbert.go o p ("F" :: rest) =
      ⟨.linearInterpolation, p.add (o.to_vector 5), some Hilbert.FEED_RATE⟩ ::
        Hilbert.go o (p.add (o.to_vector 5)) rest := by
  simp [Hilbert.go]

lemma go_A (o : Hilbert.Orientation4) (p : Position3D ℝ) (rest : List Symbol) :
    Hilbert.go o p ("A" :: rest) = Hilbert.go o p rest := by
  simp [Hilbert.go]

lemma go_B (o : Hilbert.Orientation4) (p : Position3D ℝ) (rest : List Symbol) :
    Hilbert.go o p ("B" :: rest) = Hilbert.go o p rest := by
  simp [Hilbert.go]

/-! Step lemmas restated on explicitly built states, so that rewriting under
the simulation relation stays syntactic. -/

lemma buildGo_plus_mk (ai ss : ℝ) (p : Position3D ℝ) (oa : Orientation)
    (stk : List TurtleState) (xr yr : PositionRange ℝ) (rest : List Symbol) :
    buildGo ai ss ⟨p, oa⟩ stk xr yr ("+" :: rest) =
      buildGo ai ss ⟨p, oa.angleIncrement ai⟩ stk xr yr rest :=
  buildGo_plus ai ss ⟨p, oa⟩ stk xr yr rest

lemma buildGo_minus_mk (ai ss : ℝ) (p : Position3D ℝ) (oa : Orientation)
    (stk : List TurtleState) (xr yr : PositionRange ℝ) (rest : List Symbol) :
    buildGo ai ss ⟨p, oa⟩ stk xr yr ("-" :: rest) =
      buildGo ai ss ⟨p, oa.angleIncrement (-ai)⟩ stk xr yr rest :=
  buildGo_minus ai ss ⟨p, oa⟩ stk xr yr rest

lemma buildGo_F_mk (ai ss : ℝ) (p : Position3D ℝ) (oa : Orientation)
    (stk : List TurtleState) (xr yr : PositionRange ℝ) (rest : List Symbol) :
    buildGo ai ss ⟨p, oa⟩ stk xr yr ("F" :: rest) =
      (match buildGo ai ss ⟨p.add (oa.toVector ss), oa⟩ stk
          (xr.update (xf (p.add (oa.toVector ss)).x))
          (yr.update (xf (p.add (oa.toVector ss)).y)) rest with
        | .error e => .error e
        | .ok (prog, xr', yr') =>
            .ok (⟨.linearInterpolation, p.add (oa.toVector ss),
                  some (FEED_RATE ℝ)⟩ :: prog, xr', yr')) :=
  buildGo_F ai ss ⟨p, oa⟩ stk xr yr rest

/-- The simulation between the two emitter variants: over any symbol
sequence of the standalone module's alphabet, the unified interpreter run
with angle increment pi/2 and step 5 succeeds, and its projected event list
is exactly the standalone module's projected event list with stationary turn
events collapsed, provided both turtles start at the same x/y position and
corresponding headings. -/
lemma hilbert_sim :
    ∀ (syms : List Symbol),
      (∀ s ∈ syms, s = "A" ∨ s = "B" ∨ s = "F" ∨ s = "+" ∨ s = "-") →
      ∀ (o : Hilbert.Orientation4) (p3 p : Position3D ℝ)
        (stk : List TurtleState) (xr yr : PositionRange ℝ),
        p3.x = p.x → p3.y = p.y →
        ∃ (ev : List (GCodeInstruction ℝ)) (xr' yr' : PositionRange ℝ),
          buildGo (Real.pi / 2) 5 ⟨p, ⟨dirAngle o⟩⟩ stk xr yr syms =
            .ok (ev, xr', yr') ∧
          ev.map projXY =
            collapseStationary (p.x, p.y) ((Hilbert.go o p3 syms).map projXY) := by
  intro syms
  induction syms with
  | nil =>
    intro _ o p3 p stk xr yr _ _
    exact ⟨[], xr, yr, buildGo_nil _ _ _ _ _ _,
      by simp [Hilbert.go, collapseStationary]⟩
  | cons s rest ih =>
    intro hmem o p3 p stk xr yr hx hy
    have hmem' : ∀ t ∈ rest, t = "A" ∨ t = "B" ∨ t = "F" ∨ t = "+" ∨ t = "-" :=
      fun t ht => hmem t (List.mem_cons_of_mem s ht)
    rcases hmem s (List.mem_cons_self s rest) with hA | hB | hF | hP | hM
    · subst hA
      obtain ⟨ev, xr', yr', hrec, hmap⟩ := ih hmem' o p3 p stk xr yr hx hy
      refine ⟨ev, xr', yr', ?_, ?_⟩
      · rw [buildGo_skip _ _ _ _ _ _ _ _ (by decide) (by decide) (by decide)
          (by decide) (by decide) (by decide)]
        exact hrec
      · rw [show Hilbert.go o p3 ("A" :: rest) = Hilbert.go o p3 rest by
          simp [Hilbert.go]]
        exact hmap
    · subst hB
      obtain ⟨ev, xr', yr', hrec, hmap⟩ := ih hmem' o p3 p stk xr yr hx hy
      refine ⟨ev, xr', yr', ?_, ?_⟩
      · rw [buildGo_skip _ _ _ _ _ _ _ _ (by decide) (by decide) (by decide)
          (by decide) (by decide) (by decide)]
        exact hrec
      · rw [show Hilbert.go o p3 ("B" :: rest) = Hilbert.go o p3 rest by
          simp [Hilbert.go]]
        exact hmap
    · subst hF
      have hvec : Orientation.toVector ⟨dirAngle o⟩ 5 =
          Hilbert.Orientation4.to_vector o 5 := toVector_dir o
      have hx' : (p3.add (Hilbert.Orientation4.to_vector o 5)).x =
          (p.add (Orientation.toVector ⟨dirAngle o⟩ 5)).x := by
        simp [Position3D.add, hvec, hx]
      have hy' : (p3.add (Hilbert.Orientation4.to_vector o 5)).y =
          (p.add (Orientation.toVector ⟨dirAngle o⟩ 5)).y := by
        simp [Position3D.add, hvec, hy]
      obtain ⟨ev, xr', yr', hrec, hmap⟩ := ih hmem' o
        (p3.add (Hilbert.Orientation4.to_vector o 5))
        (p.add (Orientation.toVector ⟨dirAngle o⟩ 5)) stk
        (xr.update (xf (p.add (Orientation.toVector ⟨dirAngle o⟩ 5)).x))
        (yr.update (xf (p.add (Orientation.toVector ⟨dirAngle o⟩ 5)).y)) hx' hy'
      refine ⟨⟨.linearInterpolation, p.add (Orientation.toVector ⟨dirAngle o⟩ 5),
          some (FEED_RATE ℝ)⟩ :: ev, xr', yr', ?_, ?_⟩
      · rw [buildGo_F_mk, hrec]
      · have hgo : Hilbert.go o p3 ("F" :: rest) =
            ⟨.linearInterpolation, p3.add (Hilbert.Orientation4.to_vector o 5),
              some Hilbert.FEED_RATE⟩ ::
              Hilbert.go o (p3.add (Hilbert.Orientation4.to_vector o 5)) rest := by
          simp [Hilbert.go]
        rw [hgo]
        simp only [List.map_cons, projXY]
        rw [collapseStationary, if_neg (by rw [← hx, ← hy]; exact to_vector_moves o p3)]
        rw [List.cons_eq_cons]
        constructor
        · rw [Prod.ext_iff, Prod.ext_iff]
          exact ⟨rfl, hx'.symm, hy'.symm⟩
        · rw [hmap, hx', hy']
    · subst hP
      obtain ⟨ev, xr', yr', hrec, hmap⟩ := ih hmem' o.left p3 p stk xr yr hx hy
      refine ⟨ev, xr', yr', ?_, ?_⟩
      · rw [buildGo_plus_mk, dirAngle_left]
        exact hrec
      · have hgo : Hilbert.go o p3 ("+" :: rest) =
            ⟨.linearInterpolation, p3, some Hilbert.FEED_RATE⟩ ::
              Hilbert.go o.left p3 rest := by
          simp [Hilbert.go]
        rw [hgo]
        simp only [List.map_cons, projXY]
        rw [collapseStationary, if_pos (by rw [hx, hy])]
        exact hmap
    · subst hM
      obtain ⟨ev, xr', yr', hrec, hmap⟩ := ih hmem' o.right p3 p stk xr yr hx hy
      refine ⟨ev, xr', yr', ?_, ?_⟩
      · rw [buildGo_minus_mk, dirAngle_right]
        exact hrec
      · have hgo : Hilbert.go o p3 ("-" :: rest) =
            ⟨.linearInterpolation, p3, some Hilbert.FEED_RATE⟩ ::
              Hilbert.go o.right p3 rest := by
          simp [Hilbert.go]
        rw [hgo]
        simp only [List.map_cons, projXY]
        rw [collapseStationary, if_pos (by rw [hx, hy])]
        exact hmap

/-- Helper: one rewriting step of the standalone module stays inside its
alphabet. -/
lemma next_str_closed (l : List Symbol)
    (hl : ∀ s ∈ l, s = "A" ∨ s = "B" ∨ s = "F" ∨ s = "+" ∨ s = "-") :
    ∀ t ∈ Hilbert.next_str l,
      t = "A" ∨ t = "B" ∨ t = "F" ∨ t = "+" ∨ t = "-" := by
  intro t ht
  rw [Hilbert.next_str, List.mem_flatMap] at ht
  obtain ⟨s, hs, hts⟩ := ht
  by_cases hA : s = "A"
  · rw [if_pos hA] at hts
    fin_cases hts <;> simp
  by_cases hB : s = "B"
  · rw [if_neg hA, if_pos hB] at hts
    fin_cases hts <;> simp
  · rw [if_neg hA, if_neg hB] at hts
    simp only [List.mem_singleton] at hts
    subst hts
    exact hl _ hs

/-- Helper: every expansion of the standalone Hilbert axiom stays inside
the standalone alphabet. -/
lemma hilbert_symbols_closed : ∀ n : ℕ, ∀ s ∈ Hilbert.nth_iteration n,
    s = "A" ∨ s = "B" ∨ s = "F" ∨ s = "+" ∨ s = "-" := by
  intro n
  induction n with
  | zero =>
    intro s hs
    rw [show Hilbert.nth_iteration 0 = ["A"] from rfl] at hs
    fin_cases hs
    simp
  | succ n ih =>
    have hstep : Hilbert.nth_iteration (n + 1) =
        Hilbert.next_str (Hilbert.nth_iteration n) := by
      rw [Hilbert.nth_iteration, Hilbert.nth_iteration, List.range_succ,
        List.foldl_append]
      rfl
    rw [hstep]
    exact next_str_closed _ ih

/-- C8 counterexample: at depth 1 the two variants do not produce the same
ordered (command, x, y) event sequence: the standalone module also emits an
instruction for every turn symbol, so it produces 7 events where the unified
interpreter produces 3. -/
theorem hilbert_variants_counterexample :
    (build_g_code (Hilbert.nth_iteration 1) (Real.pi / 2) 5 0).map
        (fun r => r.1.map projXY) ≠
      .ok ((Hilbert.build_g_code (Hilbert.nth_iteration 1)).map projXY) := by
  obtain ⟨ev, xr', yr', h1, h2⟩ := hilbert_sim (Hilbert.nth_iteration 1)
      (hilbert_symbols_closed 1) .east ⟨0, 0, -1⟩ ⟨0, 0, LINE_DEPTH ℝ⟩ []
      PositionRange.initial PositionRange.initial rfl rfl
  have hseq : Hilbert.nth_iteration 1 =
      ["+", "B", "F", "-", "A", "F", "A", "-", "F", "B", "+"] := rfl
  have hstd : (Hilbert.go .east ⟨0, 0, -1⟩
      ["+", "B", "F", "-", "A", "F", "A", "-", "F", "B", "+"]).map projXY =
      [(Command.linearInterpolation, (0 : ℝ), (0 : ℝ)),
       (Command.linearInterpolation, 0, 5),
       (Command.linearInterpolation, 0, 5),
       (Command.linearInterpolation, 5, 5),
       (Command.linearInterpolation, 5, 5),
       (Command.linearInterpolation, 5, 0),
       (Command.linearInterpolation, 5, 0)] := by
    simp only [go_plus, go_minus, go_F, go_A, go_B, go_nil,
      Hilbert.Orientation4.left, Hilbert.Orientation4.right,
      Hilbert.Orientation4.to_vector, Position3D.add, List.map_cons,
      List.map_nil, projXY]
    norm_num
  have hstdb : (Hilbert.build_g_code (Hilbert.nth_iteration 1)).map projXY =
      [(Command.linearInterpolation, (0 : ℝ), (0 : ℝ)),
       (Command.linearInterpolation, 0, 5),
       (Command.linearInterpolation, 0, 5),
       (Command.linearInterpolation, 5, 5),
       (Command.linearInterpolation, 5, 5),
       (Command.linearInterpolation, 5, 0),
       (Command.linearInterpolation, 5, 0)] := by
    rw [Hilbert.build_g_code, hseq]
    exact hstd
  have h2a : ev.map projXY =
      collapseStationary (0, 0) ((Hilbert.go .east ⟨0, 0, -1⟩
        (Hilbert.nth_iteration 1)).map projXY) := h2
  rw [hseq, hstd] at h2a
  have hcol : collapseStationary ((0 : ℝ), (0 : ℝ))
      [(Command.linearInterpolation, (0 : ℝ), (0 : ℝ)),
       (Command.linearInterpolation, 0, 5),
       (Command.linearInterpolation, 0, 5),
       (Command.linearInterpolation, 5, 5),
       (Command.linearInterpolation, 5, 5),
       (Command.linearInterpolation, 5, 0),
       (Command.linearInterpolation, 5, 0)] =
      [(Command.linearInterpolation, (0 : ℝ), (5 : ℝ)),
       (Command.linearInterpolation, 5, 5),
       (Command.linearInterpolation, 5, 0)] := by
    rw [collapseStationary, if_pos rfl,
      collapseStationary, if_neg (by norm_num [Prod.ext_iff]),
      collapseStationary, if_pos rfl,
      collapseStationary, if_neg (by norm_num [Prod.ext_iff]),
      collapseStationary, if_pos rfl,
      collapseStationary, if_neg (by norm_num [Prod.ext_iff]),
      collapseStationary, if_pos rfl,
      collapseStationary]
  rw [hcol] at h2a
  have hu : build_g_code (Hilbert.nth_iteration 1) (Real.pi / 2) 5 0 =
      .ok (ev, xr', yr') := by
    rw [build_g_code, ofAngle_zero]
    exact h1
  rw [hu]
  simp only [Except.map]
  rw [h2a, hstdb]
  norm_num [Prod.ext_iff]

/-- C8 (amended): for every expansion depth of the Hilbert grammar, the
unified interpreter run on the standalone module's expansion with angle
increment pi/2 and step size 5 succeeds, and its ordered (command, x, y)
event sequence equals the standalone module's event sequence with the
stationary events collapsed -- the standalone loop also appends an
instruction, at the unchanged position, for every turn symbol, so the plain
sequences differ by exactly those stationary turn events; beyond that the
variants differ only in configuration constants (feed rate 400 versus 100,
drawing depth -1 versus -0.5). -/
theorem hilbert_variants_agree (n : ℕ) :
    ∃ (ev : List (GCodeInstruction ℝ)) (xr' yr' : PositionRange ℝ),
      build_g_code (Hilbert.nth_iteration n) (Real.pi / 2) 5 0 =
        .ok (ev, xr', yr') ∧
      ev.map projXY =
        collapseStationary (0, 0)
          ((Hilbert.build_g_code (Hilbert.nth_iteration n)).map projXY) := by
  obtain ⟨ev, xr', yr', h1, h2⟩ := hilbert_sim (Hilbert.nth_iteration n)
      (hilbert_symbols_closed n) .east ⟨0, 0, -1⟩ ⟨0, 0, LINE_DEPTH ℝ⟩ []
      PositionRange.initial PositionRange.initial rfl rfl
  refine ⟨ev, xr', yr', ?_, ?_⟩
  · rw [build_g_code, ofAngle_zero]
    exact h1
  · rw [Hilbert.build_g_code]
    exact h2

end L2G
